import Mathlib

/-
  Shallow embedding of src/coap-server.js (fake-shelly).

  The file models the CoAP status server: the custom option codec
  registered by CoapServer.registerOptions, the device identifier
  builder, the status broadcast / status request paths with their
  shared serial counter, the timer scheduling, and start/stop.
-/

namespace FakeShelly

/-! ### Constants from the top of coap-server.js -/

def COAP_MULTICAST_ADDRESS : String := "224.0.1.187"

def GLOBAL_DEVID : String := "3332"

def STATUS_VALIDITY : String := "3412"

def STATUS_SERIAL : String := "3420"

def statusPath : String := "/cit/s"

/-! ### JS parseInt model

  The numeric option encoders call parseInt(str) before writing the
  value.  parseInt skips leading whitespace, accepts an optional sign,
  an optional 0x/0X hex marker, then consumes the longest initial run
  of digits valid for the radix; if no digit is consumed the result is
  NaN, modelled here as none. -/

def digitVal (c : Char) : Option Nat :=
  if '0' ≤ c ∧ c ≤ '9' then some (c.toNat - 48)
  else if 'a' ≤ c ∧ c ≤ 'z' then some (c.toNat - 87)
  else if 'A' ≤ c ∧ c ≤ 'Z' then some (c.toNat - 55)
  else none

def parseDigits (radix : Nat) : List Char → Nat → Bool → Option Nat
  | [], acc, seen => if seen then some acc else none
  | c :: rest, acc, seen =>
    match digitVal c with
    | some v =>
      if v < radix then parseDigits radix rest (acc * radix + v) true
      else if seen then some acc else none
    | none => if seen then some acc else none

def parseIntJS (s : String) : Option Int :=
  let cs := s.toList.dropWhile Char.isWhitespace
  let (sign, cs1) : Int × List Char :=
    match cs with
    | '-' :: r => (-1, r)
    | '+' :: r => (1, r)
    | r => (1, r)
  let (radix, cs2) : Nat × List Char :=
    match cs1 with
    | '0' :: 'x' :: r => (16, r)
    | '0' :: 'X' :: r => (16, r)
    | r => (10, r)
  (parseDigits radix cs2 0 false).map (fun n => sign * (n : Int))

/-! ### Numeric option codec

  registerOptions registers for option numbers 3412 and 3420 the
  encoder str => Buffer.alloc(2).writeUInt16BE(parseInt(str), 0) and
  the decoder buf => buf.readUInt16BE(0).  Node checks the value with
  value > max or value < min and throws a RangeError when a real
  number lies outside [0, 65535]; NaN makes both comparisons false, so
  it passes the check and the write coerces it to 0, silently
  producing the buffer 00 00.  A JS number that may be NaN is
  modelled as Option Int (none = NaN); parseInt applied to an integer
  Number equals that integer, since JS first converts the number to
  its decimal string. -/

inductive EncodingError where
  | encodingError
deriving DecidableEq, Repr

def writeUInt16BE (v : Option Int) : Except EncodingError (List Nat) :=
  match v with
  | none => Except.ok [0, 0]
  | some n =>
    if 0 ≤ n ∧ n ≤ 65535 then
      Except.ok [n.toNat / 256, n.toNat % 256]
    else
      Except.error EncodingError.encodingError

def readUInt16BE (bs : List Nat) : Option Nat :=
  match bs with
  | b0 :: b1 :: _ => some (b0 * 256 + b1)
  | _ => none

/-- Values handed to a coap option: either a JS string or a number. -/
inductive OptionInput where
  | str (s : String)
  | num (n : Int)
deriving DecidableEq, Repr

def toJSNumber (v : OptionInput) : Option Int :=
  match v with
  | OptionInput.num n => some n
  | OptionInput.str s => parseIntJS s

/-- The encode function registered for STATUS_VALIDITY and STATUS_SERIAL. -/
def numericOptionEncode (v : OptionInput) : Except EncodingError (List Nat) :=
  writeUInt16BE (toJSNumber v)

/-! ### Buffers: Buffer.from(string) is the UTF-8 encoding -/

def utf8Bytes (c : Char) : List Nat :=
  let n := c.toNat
  if n < 128 then [n]
  else if n < 2048 then [192 + n / 64, 128 + n % 64]
  else if n < 65536 then [224 + n / 4096, 128 + (n / 64) % 64, 128 + n % 64]
  else [240 + n / 262144, 128 + (n / 4096) % 64, 128 + (n / 64) % 64, 128 + n % 64]

def bufferFrom (s : String) : List Nat :=
  (s.toList.map utf8Bytes).flatten

/-! ### JSON model: the body is JSON.stringify of the device payload -/

inductive Json where
  | null : Json
  | bool : Bool → Json
  | num : Int → Json
  | str : String → Json
  | arr : List Json → Json
  | obj : List (String × Json) → Json

def jsonEscapeChar (c : Char) : String :=
  if c = '\x22' then "\\\x22"
  else if c = '\\' then "\\\\"
  else String.singleton c

def jsonEscape (s : String) : String :=
  String.join (s.toList.map jsonEscapeChar)

mutual

def jsonStringify : Json → String
  | Json.null => "null"
  | Json.bool true => "true"
  | Json.bool false => "false"
  | Json.num n => toString n
  | Json.str s => "\x22" ++ jsonEscape s ++ "\x22"
  | Json.arr xs => "[" ++ jsonStringifyArr xs ++ "]"
  | Json.obj fs => "\x7b" ++ jsonStringifyObj fs ++ "\x7d"

def jsonStringifyArr : List Json → String
  | [] => ""
  | [x] => jsonStringify x
  | x :: y :: rest => jsonStringify x ++ "," ++ jsonStringifyArr (y :: rest)

def jsonStringifyObj : List (String × Json) → String
  | [] => ""
  | [(k, v)] => "\x22" ++ jsonEscape k ++ "\x22:" ++ jsonStringify v
  | (k, v) :: f :: rest =>
    "\x22" ++ jsonEscape k ++ "\x22:" ++ jsonStringify v ++ "," ++
      jsonStringifyObj (f :: rest)

end

/-! ### Device (external collaborator) and the identifier builder -/

structure Device where
  type : String
  id : String
  coapStatusPayload : Json

/-- getDeviceIdentifier concatenates device.type, #, device.id, #1
  as the template literal in the source does. -/
def getDeviceIdentifier (d : Device) : String :=
  String.join [d.type, "#", d.id, "#1"]

/-! ### Response objects and setUriPath

  A node-coap OutgoingMessage is modelled as an option list plus a
  body; setOption replaces any existing option of the same name. -/

inductive OptValue where
  | str (s : String)
  | num (n : Nat)
  | bufs (bs : List (List Nat))

structure Response where
  options : List (String × OptValue)
  body : Option String

def emptyResponse : Response := ⟨[], none⟩

def Response.setOption (res : Response) (name : String) (v : OptValue) : Response :=
  { res with options := res.options.filter (fun p => p.1 != name) ++ [(name, v)] }

def Response.getOption (res : Response) (name : String) : Option OptValue :=
  (res.options.find? (fun p => p.1 == name)).map Prod.snd

/-- JS String.prototype.split with a one-character separator. -/
def splitOnCharAux (sep : Char) : List Char → List Char → List (List Char)
  | [], acc => [acc.reverse]
  | c :: rest, acc =>
    if c = sep then acc.reverse :: splitOnCharAux sep rest []
    else splitOnCharAux sep rest (c :: acc)

def jsSplit (s : String) (sep : Char) : List String :=
  (splitOnCharAux sep s.toList []).map String.mk

/-- setUriPath splits the uri on /, keeps the non-empty parts as
  buffers, and sets the Uri-Path option when at least one remains. -/
def setUriPath (res : Response) (uri : String) : Response :=
  let parts := jsSplit uri '/'
  let buffers := (parts.filter (fun p => p != "")).map bufferFrom
  if buffers.length > 0 then res.setOption "Uri-Path" (OptValue.bufs buffers)
  else res

/-! ### Announcements: the multicast request built by broadcastStatus -/

structure Announcement where
  host : String
  pathname : String
  devId : String
  statusValidity : Nat
  statusSerial : Nat
  multicast : Bool
  multicastTimeout : Nat
  statusCode : String
  body : String

/-- A message that left the server: a multicast announcement or a
  unicast response to a status request. -/
inductive Sent where
  | ann (a : Announcement)
  | resp (r : Response)

/-- The serial value carried on the wire by a sent message. -/
def Sent.serialValue : Sent → Option Nat
  | Sent.ann a => some a.statusSerial
  | Sent.resp r =>
    match r.getOption STATUS_SERIAL with
    | some (OptValue.num n) => some n
    | _ => none

/-! ### Server state and the event world

  ServerState mirrors the CoapServer instance fields; World adds the
  JS runtime pieces the code interacts with: the table of pending
  setTimeout timers, a fresh-id source, the current time, and the log
  of sent messages. -/

structure TimerEntry where
  id : Nat
  expiry : Nat
deriving DecidableEq, Repr

structure ServerState where
  device : Device
  serverOpen : Bool
  multicastServerOpen : Bool
  serial : Nat
  timeoutHandle : Option Nat
  changeSubscribed : Bool

structure World where
  st : ServerState
  timers : List TimerEntry
  nextTimerId : Nat
  now : Nat
  sent : List Sent

/-- The constructor: serial starts at 1, no servers, no timer. -/
def initWorld (d : Device) : World :=
  { st := { device := d, serverOpen := false, multicastServerOpen := false,
            serial := 1, timeoutHandle := none, changeSubscribed := false },
    timers := [], nextTimerId := 0, now := 0, sent := [] }

/-- The multicast request built by broadcastStatus: coap.request with
  host, pathname, the three options, multicast flag and timeout, then
  statusCode 0.30 and the JSON body. -/
def broadcastAnn (w : World) : Announcement :=
  { host := COAP_MULTICAST_ADDRESS, pathname := statusPath,
    devId := getDeviceIdentifier w.st.device,
    statusValidity := 38400, statusSerial := w.st.serial,
    multicast := true, multicastTimeout := 100, statusCode := "0.30",
    body := jsonStringify w.st.device.coapStatusPayload }

/-- broadcastStatus: clear any pending timeout, schedule a new 30000 ms
  timeout, send the multicast announcement carrying the current serial,
  and post-increment the serial. -/
def broadcastStatus (w : World) : World :=
  let timers1 :=
    match w.st.timeoutHandle with
    | some h => w.timers.filter (fun t => t.id != h)
    | none => w.timers
  { w with
    st := { w.st with timeoutHandle := some w.nextTimerId,
                      serial := w.st.serial + 1 },
    timers := timers1 ++ [⟨w.nextTimerId, w.now + 30000⟩],
    nextTimerId := w.nextTimerId + 1,
    sent := w.sent ++ [Sent.ann (broadcastAnn w)] }

/-- handleStatusRequest: mirror the status path, set the three custom
  options (with the current serial, post-incremented) and end with the
  JSON body. -/
def handleStatusRequest (w : World) (res : Response) : World × Response :=
  let res1 := setUriPath res statusPath
  let res2 := res1.setOption GLOBAL_DEVID
    (OptValue.str (getDeviceIdentifier w.st.device))
  let res3 := res2.setOption STATUS_VALIDITY (OptValue.num 38400)
  let res4 := res3.setOption STATUS_SERIAL (OptValue.num w.st.serial)
  let res5 := { res4 with body := some (jsonStringify w.st.device.coapStatusPayload) }
  ({ w with st := { w.st with serial := w.st.serial + 1 },
            sent := w.sent ++ [Sent.resp res5] },
   res5)

structure Request where
  method : String
  url : String

/-- The request handler: only GET on /cit/s reaches the status
  handler; every other request falls through with no response. -/
def requestHandler (w : World) (req : Request) (res : Response) :
    World × Option Response :=
  if req.method == "GET" && req.url == statusPath then
    ((handleStatusRequest w res).1, some (handleStatusRequest w res).2)
  else
    (w, none)

/-- stop: unsubscribe from device changes, close and null both
  servers, clear and null the pending timeout. -/
def stopServer (w : World) : World :=
  let timers1 :=
    match w.st.timeoutHandle with
    | some h => w.timers.filter (fun t => t.id != h)
    | none => w.timers
  { w with
    st := { w.st with changeSubscribed := false, serverOpen := false,
                      multicastServerOpen := false, timeoutHandle := none },
    timers := timers1 }

/-- start: subscribe to device changes, start both servers (each
  idempotent: an already-open server binds nothing), then broadcast on
  success or stop and propagate the first bind error on failure.  The
  bind outcomes are inputs from the environment (none = success). -/
def startServer (w : World) (bind1 bind2 : Option String) :
    World × Option String :=
  let w1 := { w with st := { w.st with changeSubscribed := true } }
  let r1 := if w1.st.serverOpen then none else bind1
  let w2 := { w1 with st := { w1.st with serverOpen := true } }
  let r2 := if w2.st.multicastServerOpen then none else bind2
  let w3 := { w2 with st := { w2.st with multicastServerOpen := true } }
  match r1 with
  | some e => (stopServer w3, some e)
  | none =>
    match r2 with
    | some e => (stopServer w3, some e)
    | none => (broadcastStatus w3, none)

/-! ### Events delivered by the single-threaded event loop -/

inductive Event where
  | deviceChange (t : Nat)
  | timerFire
  | statusRequest
  | stopCall
  | startCall (bind1 bind2 : Option String)

def step (w : World) (e : Event) : World :=
  match e with
  | Event.deviceChange t =>
    if w.st.changeSubscribed then broadcastStatus { w with now := t } else w
  | Event.timerFire =>
    match w.timers with
    | [] => w
    | t :: _ =>
      broadcastStatus
        { w with now := t.expiry,
                 timers := w.timers.filter (fun x => x.id != t.id) }
  | Event.statusRequest =>
    if w.st.serverOpen || w.st.multicastServerOpen then
      (handleStatusRequest w emptyResponse).1
    else w
  | Event.stopCall => stopServer w
  | Event.startCall b1 b2 => (startServer w b1 b2).1

def runEvents (w : World) (es : List Event) : World :=
  es.foldl step w

/-! ### Invariants -/

/-- At most one pending timer exists, the stored handle points at it,
  and every live timer id is below the fresh-id source. -/
abbrev TimerInv (w : World) : Prop :=
  w.timers.length ≤ 1 ∧
  ∀ t ∈ w.timers, w.st.timeoutHandle = some t.id ∧ t.id < w.nextTimerId

/-- The serials observed on the wire so far are exactly 1, 2, ... in
  order, and the counter sits one past the last value sent. -/
abbrev SerialInv (w : World) : Prop :=
  w.sent.map Sent.serialValue = (List.range' 1 w.sent.length).map some ∧
  w.st.serial = 1 + w.sent.length

/-- A concrete device for closed-form evaluations. -/
def deviceEx : Device :=
  { type := "SHSW-1", id := "112233",
    coapStatusPayload := Json.obj [("G", Json.arr [Json.num 0])] }

def worldEx : World := initWorld deviceEx

/-- The state reached inside start after subscribing and creating both
  servers, before the bind outcomes are inspected. -/
def startPrep (w : World) : World :=
  { w with st :=
      { w.st with
          changeSubscribed := true
          serverOpen := true
          multicastServerOpen := true } }

/-! ### Helper lemmas about the timer table -/

theorem timers_eq_nil_of_handle_none (w : World) (h : TimerInv w)
    (hh : w.st.timeoutHandle = none) : w.timers = [] := by
  cases ht : w.timers with
  | nil => rfl
  | cons t rest =>
    have hmem : t ∈ w.timers := ht ▸ List.mem_cons_self t rest
    have := (h.2 t hmem).1
    rw [hh] at this
    exact absurd this (by simp)

theorem filter_handle_eq_nil (w : World) (h : TimerInv w) (hd : Nat)
    (hh : w.st.timeoutHandle = some hd) :
    w.timers.filter (fun t => t.id != hd) = [] := by
  rw [List.filter_eq_nil_iff]
  intro t ht
  have := (h.2 t ht).1
  rw [hh] at this
  have hid : t.id = hd := by
    injection this with h1
    exact h1.symm
  simp [hid]

theorem broadcast_clears (w : World) (h : TimerInv w) :
    (broadcastStatus w).timers = [⟨w.nextTimerId, w.now + 30000⟩] := by
  cases hh : w.st.timeoutHandle with
  | none =>
    have ht := timers_eq_nil_of_handle_none w h hh
    simp [broadcastStatus, hh, ht]
  | some hd =>
    have ht := filter_handle_eq_nil w h hd hh
    simp [broadcastStatus, hh, ht]

theorem timerInv_broadcast (w : World) (h : TimerInv w) :
    TimerInv (broadcastStatus w) := by
  refine ⟨?_, ?_⟩
  · rw [broadcast_clears w h]
    simp
  · intro t ht
    rw [broadcast_clears w h] at ht
    simp only [List.mem_singleton] at ht
    subst ht
    exact ⟨rfl, Nat.lt_succ_self _⟩

theorem stop_timers (w : World) (h : TimerInv w) :
    (stopServer w).timers = [] := by
  cases hh : w.st.timeoutHandle with
  | none =>
    have ht := timers_eq_nil_of_handle_none w h hh
    simp [stopServer, hh, ht]
  | some hd =>
    have ht := filter_handle_eq_nil w h hd hh
    simp [stopServer, hh, ht]

theorem timerInv_stop (w : World) (h : TimerInv w) :
    TimerInv (stopServer w) := by
  refine ⟨?_, ?_⟩
  · rw [stop_timers w h]
    simp
  · intro t ht
    rw [stop_timers w h] at ht
    exact absurd ht (by simp)

theorem startServer_result (w : World) (b1 b2 : Option String) :
    (startServer w b1 b2).1 = stopServer (startPrep w) ∨
    (startServer w b1 b2).1 = broadcastStatus (startPrep w) := by
  simp only [startServer]
  split
  · exact Or.inl rfl
  · split
    · exact Or.inl rfl
    · exact Or.inr rfl

theorem timerInv_step (w : World) (e : Event) (h : TimerInv w) :
    TimerInv (step w e) := by
  cases e with
  | deviceChange t =>
    cases hs : w.st.changeSubscribed with
    | false => simpa [step, hs] using h
    | true =>
      have hb : TimerInv (broadcastStatus { w with now := t }) :=
        timerInv_broadcast { w with now := t } h
      simpa [step, hs] using hb
  | timerFire =>
    cases ht : w.timers with
    | nil => simpa [step, ht] using h
    | cons t rest =>
      have h1 := h.1
      rw [ht] at h1
      have hrest : rest = [] := by
        rw [← List.length_eq_zero]
        simp only [List.length_cons] at h1
        omega
      subst hrest
      simp only [step, ht]
      apply timerInv_broadcast
      refine ⟨?_, ?_⟩
      · simp
      · intro x hx
        simp at hx
  | statusRequest =>
    cases hc : (w.st.serverOpen || w.st.multicastServerOpen) with
    | false => simpa [step, hc] using h
    | true =>
      have hb : TimerInv (handleStatusRequest w emptyResponse).1 := h
      simpa [step, hc] using hb
  | stopCall => exact timerInv_stop w h
  | startCall b1 b2 =>
    show TimerInv (startServer w b1 b2).1
    rcases startServer_result w b1 b2 with hr | hr <;> rw [hr]
    · exact timerInv_stop (startPrep w) h
    · exact timerInv_broadcast (startPrep w) h

theorem timerInv_run (w : World) (es : List Event) (h : TimerInv w) :
    TimerInv (runEvents w es) := by
  induction es generalizing w with
  | nil => exact h
  | cons e es ih => exact ih (step w e) (timerInv_step w e h)

/-! ### Helper lemmas about the serial sequence -/

theorem serial_log_extend (sent : List Sent) (serial : Nat) (m : Sent)
    (h1 : sent.map Sent.serialValue = (List.range' 1 sent.length).map some)
    (h2 : serial = 1 + sent.length)
    (hm : Sent.serialValue m = some serial) :
    (sent ++ [m]).map Sent.serialValue
      = (List.range' 1 (sent ++ [m]).length).map some ∧
    serial + 1 = 1 + (sent ++ [m]).length := by
  have hlen : (sent ++ [m]).length = sent.length + 1 := by simp
  refine ⟨?_, ?_⟩
  · rw [List.map_append, h1, hlen, List.range'_1_concat, List.map_append]
    simp [hm, h2]
  · rw [hlen]
    omega

theorem serialInv_broadcast (w : World) (h : SerialInv w) :
    SerialInv (broadcastStatus w) := by
  refine ⟨?_, ?_⟩
  · exact (serial_log_extend w.sent w.st.serial (Sent.ann (broadcastAnn w))
      h.1 h.2 rfl).1
  · exact (serial_log_extend w.sent w.st.serial (Sent.ann (broadcastAnn w))
      h.1 h.2 rfl).2

theorem handle_resp_serial (w : World) :
    Sent.serialValue (Sent.resp (handleStatusRequest w emptyResponse).2)
      = some w.st.serial := rfl

theorem serialInv_handle (w : World) (h : SerialInv w) :
    SerialInv (handleStatusRequest w emptyResponse).1 := by
  refine ⟨?_, ?_⟩
  · exact (serial_log_extend w.sent w.st.serial _ h.1 h.2
      (handle_resp_serial w)).1
  · exact (serial_log_extend w.sent w.st.serial _ h.1 h.2
      (handle_resp_serial w)).2

theorem serialInv_step (w : World) (e : Event) (h : SerialInv w) :
    SerialInv (step w e) := by
  cases e with
  | deviceChange t =>
    cases hs : w.st.changeSubscribed with
    | false => simpa [step, hs] using h
    | true =>
      have hb : SerialInv (broadcastStatus { w with now := t }) :=
        serialInv_broadcast { w with now := t } h
      simpa [step, hs] using hb
  | timerFire =>
    cases ht : w.timers with
    | nil => simpa [step, ht] using h
    | cons t rest =>
      simp only [step, ht]
      exact serialInv_broadcast _ h
  | statusRequest =>
    cases hc : (w.st.serverOpen || w.st.multicastServerOpen) with
    | false => simpa [step, hc] using h
    | true =>
      have hb : SerialInv (handleStatusRequest w emptyResponse).1 :=
        serialInv_handle w h
      simpa [step, hc] using hb
  | stopCall => exact h
  | startCall b1 b2 =>
    show SerialInv (startServer w b1 b2).1
    rcases startServer_result w b1 b2 with hr | hr <;> rw [hr]
    · exact h
    · exact serialInv_broadcast (startPrep w) h

theorem serialInv_run (w : World) (es : List Event) (h : SerialInv w) :
    SerialInv (runEvents w es) := by
  induction es generalizing w with
  | nil => exact h
  | cons e es ih => exact ih (step w e) (serialInv_step w e h)

/-! ### Claim theorems -/

/-- C1: the serial counter starts at 1; every broadcast and every
  status response sends the current counter value on the wire and then
  increments the counter by exactly one; over any event sequence the
  observed serials form the single consecutive sequence 1, 2, 3, ...,
  shared by announcements and responses alike. -/
theorem serial_shared_sequence (d : Device) (es : List Event) :
    (initWorld d).st.serial = 1 ∧
    (∀ w : World,
      (broadcastStatus w).st.serial = w.st.serial + 1 ∧
      (broadcastStatus w).sent.map Sent.serialValue
        = w.sent.map Sent.serialValue ++ [some w.st.serial]) ∧
    (∀ w : World,
      (handleStatusRequest w emptyResponse).1.st.serial = w.st.serial + 1 ∧
      Sent.serialValue (Sent.resp (handleStatusRequest w emptyResponse).2)
        = some w.st.serial) ∧
    (runEvents (initWorld d) es).sent.map Sent.serialValue
      = (List.range' 1 (runEvents (initWorld d) es).sent.length).map some := by
  refine ⟨rfl, ?_, ?_, ?_⟩
  · intro w
    refine ⟨rfl, ?_⟩
    simp [broadcastStatus, broadcastAnn, Sent.serialValue]
  · intro w
    exact ⟨rfl, handle_resp_serial w⟩
  · have h0 : SerialInv (initWorld d) := ⟨rfl, rfl⟩
    exact (serialInv_run (initWorld d) es h0).1

/-- C3: every broadcastStatus cancels the pending timer and schedules
  exactly one fresh 30000 ms timer held by the handle, the
  at-most-one-pending-timer invariant is preserved by every event, and
  a device change at t = 10 s after a start at t = 0 leaves the next
  expiry at 40000 ms, not 30000 ms. -/
theorem broadcast_timer_reset (d : Device) (w : World) (e : Event)
    (h : TimerInv w) :
    TimerInv (step w e) ∧
    (broadcastStatus w).timers = [⟨w.nextTimerId, w.now + 30000⟩] ∧
    (broadcastStatus w).st.timeoutHandle = some w.nextTimerId ∧
    (runEvents (initWorld d)
        [Event.startCall none none, Event.deviceChange 10000]).timers
      = [⟨1, 40000⟩] := by
  refine ⟨timerInv_step w e h, broadcast_clears w h, rfl, ?_⟩
  have hs : (runEvents (initWorld d)
      [Event.startCall none none, Event.deviceChange 10000]).timers
    = [⟨1, 10000 + 30000⟩] := rfl
  rw [hs]

/-- Witness for C3 at a concrete world. -/
theorem broadcast_timer_reset_eval :
    TimerInv worldEx ∧
    (TimerInv (step worldEx Event.stopCall) ∧
     (broadcastStatus worldEx).timers
       = [⟨worldEx.nextTimerId, worldEx.now + 30000⟩] ∧
     (broadcastStatus worldEx).st.timeoutHandle = some worldEx.nextTimerId ∧
     (runEvents (initWorld deviceEx)
         [Event.startCall none none, Event.deviceChange 10000]).timers
       = [⟨1, 40000⟩]) :=
  ⟨by decide, broadcast_timer_reset deviceEx worldEx Event.stopCall (by decide)⟩

/-- C10: stop leaves the serial counter, the device, and the send log
  untouched (only listeners, subscription and timer are cleared), so a
  broadcast after stop continues the old sequence with the current
  counter value instead of restarting at 1. -/
theorem stop_preserves_serial (w : World) :
    (stopServer w).st.serial = w.st.serial ∧
    (stopServer w).st.device = w.st.device ∧
    (stopServer w).sent = w.sent ∧
    (stopServer w).nextTimerId = w.nextTimerId ∧
    (stopServer w).now = w.now ∧
    (broadcastStatus (stopServer w)).sent.map Sent.serialValue
      = w.sent.map Sent.serialValue ++ [some w.st.serial] := by
  refine ⟨rfl, rfl, rfl, rfl, rfl, ?_⟩
  simp [broadcastStatus, broadcastAnn, stopServer, Sent.serialValue]

/-- C4: the 16-bit numeric option codec used for StatusValidity and
  StatusSerial round-trips every integer in 0..65535 through the
  big-endian two-byte buffer, and every integer outside that range
  fails encoding with an EncodingError (Node writeUInt16BE throws on
  out-of-range values, so the encode fails rather than wraps). -/
theorem uint16_encode_decode :
    (∀ n : Nat, n ≤ 65535 →
      ∃ bs, numericOptionEncode (OptionInput.num (n : Int)) = Except.ok bs ∧
        readUInt16BE bs = some n) ∧
    (∀ n : Int, n < 0 ∨ 65535 < n →
      numericOptionEncode (OptionInput.num n)
        = Except.error EncodingError.encodingError) := by
  constructor
  · intro n hn
    refine ⟨[n / 256, n % 256], ?_, ?_⟩
    · simp only [numericOptionEncode, toJSNumber, writeUInt16BE]
      rw [if_pos]
      · simp
      · constructor
        · exact Int.natCast_nonneg n
        · exact_mod_cast hn
    · simp only [readUInt16BE, Option.some.injEq]
      omega
  · intro n hn
    simp only [numericOptionEncode, toJSNumber, writeUInt16BE]
    rw [if_neg]
    omega

/-- Witness for C4 at 38400 (in range) and 70000 (out of range). -/
theorem uint16_encode_decode_eval :
    (∃ bs,
      numericOptionEncode (OptionInput.num ((38400 : Nat) : Int))
        = Except.ok bs ∧ readUInt16BE bs = some 38400) ∧
    numericOptionEncode (OptionInput.num 70000)
      = Except.error EncodingError.encodingError :=
  ⟨uint16_encode_decode.1 38400 (by decide),
   uint16_encode_decode.2 70000 (Or.inr (by decide))⟩

/-- C8 counterexample: on the non-numeric string abc, parseInt yields
  NaN, yet the encode does not fail with an EncodingError: NaN passes
  the Node range check and is written as the zero buffer 00 00. -/
theorem nonnumeric_encode_counterexample :
    parseIntJS "abc" = none ∧
    numericOptionEncode (OptionInput.str "abc") = Except.ok [0, 0] ∧
    numericOptionEncode (OptionInput.str "abc")
      ≠ Except.error EncodingError.encodingError := by
  refine ⟨by decide, rfl, ?_⟩
  intro hcontra
  rw [show numericOptionEncode (OptionInput.str "abc")
      = Except.ok [0, 0] from rfl] at hcontra
  exact Except.noConfusion hcontra

/-- C8 (amended): a non-numeric string, on which parseInt yields NaN,
  does not make the encode fail: NaN passes the Node range check and
  is silently written as the two-byte zero buffer, which decodes to
  serial or validity 0; the encoder is a total function, so nothing
  crashes. -/
theorem nonnumeric_encode_zero_buffer (s : String)
    (h : parseIntJS s = none) :
    numericOptionEncode (OptionInput.str s) = Except.ok [0, 0] ∧
    readUInt16BE [0, 0] = some 0 := by
  constructor
  · simp [numericOptionEncode, toJSNumber, h, writeUInt16BE]
  · rfl

/-- Witness for the amended C8 on the non-numeric string abc. -/
theorem nonnumeric_encode_zero_buffer_eval :
    parseIntJS "abc" = none ∧
    (numericOptionEncode (OptionInput.str "abc") = Except.ok [0, 0] ∧
     readUInt16BE [0, 0] = some 0) :=
  ⟨by decide, nonnumeric_encode_zero_buffer "abc" (by decide)⟩

/-- C9: getDeviceIdentifier returns exactly type, #, id, #1
  concatenated, for every device, and it depends on nothing but the
  type and id fields. -/
theorem device_identifier_format :
    (∀ d : Device, getDeviceIdentifier d = d.type ++ "#" ++ d.id ++ "#1") ∧
    (∀ d1 d2 : Device, d1.type = d2.type → d1.id = d2.id →
      getDeviceIdentifier d1 = getDeviceIdentifier d2) := by
  constructor
  · intro d
    simp [getDeviceIdentifier, String.join, String.append_assoc]
  · intro d1 d2 h1 h2
    simp [getDeviceIdentifier, h1, h2]

/-- Witness for C9 at a concrete device. -/
theorem device_identifier_format_eval :
    getDeviceIdentifier deviceEx
      = deviceEx.type ++ "#" ++ deviceEx.id ++ "#1" ∧
    getDeviceIdentifier deviceEx = getDeviceIdentifier deviceEx :=
  ⟨device_identifier_format.1 deviceEx,
   device_identifier_format.2 deviceEx deviceEx rfl rfl⟩

/-- C2: a GET request for /cit/s yields a response whose Uri-Path
  option mirrors the status path as the parts cit and s, carrying the
  device identifier option, validity 38400, the current serial
  counter value, and the stringified device payload as body. -/
theorem status_response_contents (w : World) (req : Request)
    (hm : req.method = "GET") (hu : req.url = "/cit/s") :
    ∃ res, (requestHandler w req emptyResponse).2 = some res ∧
      res.getOption "Uri-Path"
        = some (OptValue.bufs [bufferFrom "cit", bufferFrom "s"]) ∧
      res.getOption GLOBAL_DEVID
        = some (OptValue.str (getDeviceIdentifier w.st.device)) ∧
      res.getOption STATUS_VALIDITY = some (OptValue.num 38400) ∧
      res.getOption STATUS_SERIAL = some (OptValue.num w.st.serial) ∧
      res.body = some (jsonStringify w.st.device.coapStatusPayload) := by
  have hb : (req.method == "GET" && req.url == statusPath) = true := by
    rw [hm, hu]; rfl
  refine ⟨(handleStatusRequest w emptyResponse).2, ?_, rfl, rfl, rfl, rfl, rfl⟩
  simp only [requestHandler, hb, if_true]

/-- Witness for C2 at a concrete world and request. -/
theorem status_response_contents_eval :
    ∃ res,
      (requestHandler worldEx ⟨"GET", "/cit/s"⟩ emptyResponse).2
        = some res ∧
      res.getOption "Uri-Path"
        = some (OptValue.bufs [bufferFrom "cit", bufferFrom "s"]) ∧
      res.getOption GLOBAL_DEVID
        = some (OptValue.str (getDeviceIdentifier worldEx.st.device)) ∧
      res.getOption STATUS_VALIDITY = some (OptValue.num 38400) ∧
      res.getOption STATUS_SERIAL = some (OptValue.num worldEx.st.serial) ∧
      res.body = some (jsonStringify worldEx.st.device.coapStatusPayload) :=
  status_response_contents worldEx ⟨"GET", "/cit/s"⟩ rfl rfl

/-- C5: the dispatcher invokes the status responder exactly when the
  method is GET and the path is /cit/s; any other combination returns
  the state unchanged with no response (the handler is a total
  function, so no error is raised either). -/
theorem request_dispatch_iff (w : World) (req : Request) (res : Response) :
    ((requestHandler w req res).2.isSome ↔
      (req.method = "GET" ∧ req.url = statusPath)) ∧
    (¬(req.method = "GET" ∧ req.url = statusPath) →
      requestHandler w req res = (w, none)) := by
  by_cases h : req.method = "GET" ∧ req.url = statusPath
  · obtain ⟨h1, h2⟩ := h
    have hb : (req.method == "GET" && req.url == statusPath) = true := by
      rw [h1, h2]; rfl
    constructor
    · simp [requestHandler, hb, h1, h2]
    · intro hc
      exact absurd ⟨h1, h2⟩ hc
  · have hb : (req.method == "GET" && req.url == statusPath) = false := by
      cases hbb : (req.method == "GET" && req.url == statusPath) with
      | false => rfl
      | true =>
        exfalso
        apply h
        have hsplit := (Bool.and_eq_true _ _).mp hbb
        exact ⟨eq_of_beq hsplit.1, eq_of_beq hsplit.2⟩
    constructor
    · simp [requestHandler, hb, h]
    · intro _
      simp [requestHandler, hb]

/-- Witness for C5 on a request with the wrong method. -/
theorem request_dispatch_iff_eval :
    ¬((Request.mk "POST" "/cit/s").method = "GET" ∧
      (Request.mk "POST" "/cit/s").url = statusPath) ∧
    requestHandler worldEx ⟨"POST", "/cit/s"⟩ emptyResponse
      = (worldEx, none) :=
  ⟨by decide,
   (request_dispatch_iff worldEx ⟨"POST", "/cit/s"⟩ emptyResponse).2
     (by decide)⟩

/-- C6: when either listener fails to bind during start (from a fresh,
  not-yet-listening state), start propagates the first bind error and
  the catch branch calls stop, so afterwards both listeners are
  closed, the change subscription is removed, and no timer is pending. -/
theorem start_failure_teardown (w : World) (b1 b2 : Option String)
    (hInv : TimerInv w) (hso : w.st.serverOpen = false)
    (hmo : w.st.multicastServerOpen = false)
    (hfail : b1.isSome ∨ b2.isSome) :
    (startServer w b1 b2).2
      = (match b1 with | some e => some e | none => b2) ∧
    (startServer w b1 b2).2.isSome ∧
    (startServer w b1 b2).1.st.serverOpen = false ∧
    (startServer w b1 b2).1.st.multicastServerOpen = false ∧
    (startServer w b1 b2).1.st.changeSubscribed = false ∧
    (startServer w b1 b2).1.st.timeoutHandle = none ∧
    (startServer w b1 b2).1.timers = [] := by
  have hprep : TimerInv (startPrep w) := hInv
  cases b1 with
  | some e =>
    have hred : startServer w (some e) b2
        = (stopServer (startPrep w), some e) := by
      simp [startServer, startPrep, hso]
    rw [hred]
    exact ⟨rfl, rfl, rfl, rfl, rfl, rfl, stop_timers (startPrep w) hprep⟩
  | none =>
    cases b2 with
    | none => simp at hfail
    | some e =>
      have hred : startServer w none (some e)
          = (stopServer (startPrep w), some e) := by
        simp [startServer, startPrep, hso, hmo]
      rw [hred]
      exact ⟨rfl, rfl, rfl, rfl, rfl, rfl, stop_timers (startPrep w) hprep⟩

/-- Witness for C6: the unicast bind fails on a fresh world. -/
theorem start_failure_teardown_eval :
    (startServer worldEx (some "EADDRINUSE") none).2
      = (match some "EADDRINUSE" with
         | some e => some e
         | none => (none : Option String)) ∧
    (startServer worldEx (some "EADDRINUSE") none).2.isSome ∧
    (startServer worldEx (some "EADDRINUSE") none).1.st.serverOpen
      = false ∧
    (startServer worldEx (some "EADDRINUSE") none).1.st.multicastServerOpen
      = false ∧
    (startServer worldEx (some "EADDRINUSE") none).1.st.changeSubscribed
      = false ∧
    (startServer worldEx (some "EADDRINUSE") none).1.st.timeoutHandle
      = none ∧
    (startServer worldEx (some "EADDRINUSE") none).1.timers = [] :=
  start_failure_teardown worldEx (some "EADDRINUSE") none
    (by decide) rfl rfl (Or.inl rfl)

/-- C7: stop is a total function (it cannot throw), it may be called
  from any state including one where start has not completed, it
  leaves no open listener, no subscription and no pending timer, a
  timer-fire event after stop is a no-op, and a second stop changes
  nothing. -/
theorem stop_idempotent_cleanup (w : World) (hInv : TimerInv w) :
    (stopServer w).st.serverOpen = false ∧
    (stopServer w).st.multicastServerOpen = false ∧
    (stopServer w).st.changeSubscribed = false ∧
    (stopServer w).st.timeoutHandle = none ∧
    (stopServer w).timers = [] ∧
    stopServer (stopServer w) = stopServer w ∧
    step (stopServer w) Event.timerFire = stopServer w := by
  refine ⟨rfl, rfl, rfl, rfl, stop_timers w hInv, ?_, ?_⟩
  · rfl
  · have ht := stop_timers w hInv
    simp [step, ht]

/-- Witness for C7 at a concrete world. -/
theorem stop_idempotent_cleanup_eval :
    (stopServer worldEx).st.serverOpen = false ∧
    (stopServer worldEx).st.multicastServerOpen = false ∧
    (stopServer worldEx).st.changeSubscribed = false ∧
    (stopServer worldEx).st.timeoutHandle = none ∧
    (stopServer worldEx).timers = [] ∧
    stopServer (stopServer worldEx) = stopServer worldEx ∧
    step (stopServer worldEx) Event.timerFire = stopServer worldEx :=
  stop_idempotent_cleanup worldEx (by decide)

end FakeShelly
